import Mathlib

/-!
# Verification of the raster-acquisition pipeline of `crop_analysis`

Shallow embedding of `src/src/utilities/GEE_utilities.py` (functions
`merge_rasters`, `download_gee_data_single_collection` with its nested
`process_region`, `process_image`, `download_for_bbox`) and of
`src/src/utilities/download_utilities.py` (`download_file`).

The filesystem is modelled as an association list from paths to a file
kind (`complete` for fully written files, `truncated` for a file whose
streamed write was interrupted mid-way).  Remote interactions
(`img.getDownloadURL`, the HTTP GET performed by `download_file`,
`rasterio.open`/`merge`/write, `os.remove`) are driven by an explicit
oracle (`GWorld`), so every execution of the embedded pipeline is a pure
computation.  Python exceptions are modelled with `Except`.

Sleep durations are recorded in hundredths of a second, so the source's
`0.32 * attempt` is the natural number `32 * attempt`.
-/

namespace GEE

/-- File paths are strings; `os.path.join(a, b)` is modelled as `a ++ "/" ++ b`. -/
abbrev FPath := String

/-- Whether a file on disk was written completely, or is a truncated
leftover of a download whose stream failed after some bytes were written
(`download_file` writes chunks directly to the target path). -/
inductive FileKind
  | complete
  | truncated
deriving Repr, DecidableEq

/-- The filesystem: an association list from path to file kind. -/
abbrev FS := List (FPath × FileKind)

/-- `os.path.exists`. -/
def FS.existsPath (fs : FS) (p : FPath) : Bool :=
  fs.any (fun e => e.1 == p)

/-- Writing a file: replaces any previous entry at the path. -/
def FS.write (fs : FS) (p : FPath) (k : FileKind) : FS :=
  (p, k) :: fs.filter (fun e => e.1 != p)

/-- `os.remove`. -/
def FS.remove (fs : FS) (p : FPath) : FS :=
  fs.filter (fun e => e.1 != p)

/-- Log events emitted by the pipeline (`logger.info/warning/error`). -/
inductive LogEvent
  | infoSkipExists (p : FPath)
  | infoDownloaded (p : FPath)
  | warnRetry (p : FPath) (attempt : Nat)
  | errorExhausted (p : FPath)
  | warnNoValidDownloads (region : String) (timeSuffix : String)
  | infoMerged (p : FPath)
  | errorMerge
  | infoRemovedTemp (p : FPath)
  | warnCannotRemove (p : FPath)
  | warnYearRequired (region : String)
  | errorTaskBoundary (region : String) (year : Option Int)
deriving Repr, DecidableEq

/-- Python exceptions that the embedded code can raise. -/
inductive PyErr
  | nameErrorTime      -- `NameError: name 'time' is not defined`
  | remoteError        -- an exception out of `getDownloadURL` / `download_file`
  | valueErrorFrequency
  | otherErr (s : String)
deriving Repr, DecidableEq

/-- Observable state threaded through the embedded pipeline: the
filesystem, the directories created by `os.makedirs`, the number of
remote calls issued (`getDownloadURL` requests and HTTP GETs), the
executed sleeps (hundredths of a second) and the log. -/
structure St where
  fs : FS
  dirs : List FPath
  netCalls : Nat
  sleepsCs : List Nat
  log : List LogEvent
deriving Repr, DecidableEq

/-- Outcome of one network attempt for one target file. -/
inductive AttemptOutcome
  | urlError        -- `img.getDownloadURL` raises
  | httpError       -- HTTP GET fails before any byte is written (`raise_for_status`)
  | midStreamError  -- the streamed write fails mid-way, leaving a truncated file
  | success
deriving Repr, DecidableEq

/-- Outcome of one `merge_rasters` invocation, keyed by its output path. -/
inductive MergeOutcome
  | openFails (idx : Nat)  -- `rasterio.open` raises on the idx-th source file
  | mergeFails             -- `rasterio.merge.merge` raises
  | writeFails             -- writing the merged output raises
  | ok
deriving Repr, DecidableEq

/-- Oracle for all external effects: the outcome of the k-th download
attempt for a given filename, the outcome of a merge keyed by its output
path, and whether `os.remove` succeeds on a path. -/
structure GWorld where
  attempt : FPath → Nat → AttemptOutcome
  mergeOut : FPath → MergeOutcome
  removeOk : FPath → Bool

/-- The module-level imports of `GEE_utilities.py` (source lines 1-16).
Note that `time` is NOT among them, although line 175 calls `time.sleep`. -/
def moduleImports : List String :=
  ["os", "calendar", "logging", "concurrent.futures", "pathlib", "typing",
   "ee", "geopandas", "google.oauth2", "shapely.geometry",
   "rasterio", "rasterio.merge", "dataset_generation.utilities.download_utilities"]

/-- Whether the name `time` resolves at line 175 of `GEE_utilities.py`. -/
def timeImported : Bool := moduleImports.contains "time"

/-- One iteration of the retry loop's `try` block in `download_for_bbox`
(source lines 164-168): `img.getDownloadURL(params)` followed by
`download_file(download_url, region_folder, filename)`.  `download_file`
re-checks existence of the target before issuing its HTTP GET
(`download_utilities.py` lines 19-24) and calls `raise_for_status`
before opening the file for writing (lines 40-43), so an HTTP error
leaves no file while a mid-stream error leaves a truncated one. -/
def attemptOnce (out : AttemptOutcome) (filepath : FPath) (st : St) :
    Except PyErr Unit × St :=
  match out with
  | .urlError => (.error .remoteError, { st with netCalls := st.netCalls + 1 })
  | .httpError =>
      let st1 := { st with netCalls := st.netCalls + 1 }
      if st1.fs.existsPath filepath then (.ok (), st1)
      else (.error .remoteError, { st1 with netCalls := st1.netCalls + 1 })
  | .midStreamError =>
      let st1 := { st with netCalls := st.netCalls + 1 }
      if st1.fs.existsPath filepath then (.ok (), st1)
      else (.error .remoteError,
            { st1 with netCalls := st1.netCalls + 1,
                       fs := st1.fs.write filepath .truncated })
  | .success =>
      let st1 := { st with netCalls := st.netCalls + 1 }
      if st1.fs.existsPath filepath then (.ok (), st1)
      else (.ok (), { st1 with netCalls := st1.netCalls + 1,
                               fs := st1.fs.write filepath .complete })

/-- The retry loop of `download_for_bbox` (source lines 161-177), with
`attempt` the 1-based attempt counter and the second argument the number
of remaining iterations.  On a failed attempt the `except` block runs
`time.sleep(0.32 * attempt)`; since `time` is not in `moduleImports`,
that line raises `NameError`, which propagates out of the function. -/
def retryLoop (w : GWorld) (filepath : FPath) (attempt : Nat) :
    Nat → St → Except PyErr (Option FPath) × St
  | 0, st => (.ok none, { st with log := st.log ++ [.errorExhausted filepath] })
  | rem + 1, st =>
    match attemptOnce (w.attempt filepath attempt) filepath st with
    | (.ok _, st1) =>
        (.ok (some filepath), { st1 with log := st1.log ++ [.infoDownloaded filepath] })
    | (.error _, st1) =>
        let st2 := { st1 with log := st1.log ++ [.warnRetry filepath attempt] }
        if timeImported then
          retryLoop w filepath (attempt + 1) rem
            { st2 with sleepsCs := st2.sleepsCs ++ [32 * attempt] }
        else
          (.error .nameErrorTime, st2)

/-- `download_for_bbox` (source lines 143-177): skip if the target file
exists, otherwise run the retry loop with `max_attempts = 5`. -/
def download_for_bbox (w : GWorld) (region_folder filename : String) (st : St) :
    Except PyErr (Option FPath) × St :=
  let filepath := region_folder ++ "/" ++ filename
  if st.fs.existsPath filepath then
    (.ok (some filepath), { st with log := st.log ++ [.infoSkipExists filepath] })
  else
    retryLoop w filepath 1 5 st

/-- `collection.split('/')[-1]`: the final `/`-separated segment — the
characters after the last `/`, or the whole string when it has none
(computed over the character list so that it reduces definitionally). -/
def leafOf (collection : String) : String :=
  String.mk ((collection.data.reverse.takeWhile (fun ch => ch != '/')).reverse)

/-- The final artifact filename (source lines 196 and 209):
`f"{collection.split('/')[-1]}_{band}_{time_suffix}_{region_code}.tif"`. -/
def final_filename (collection band time_suffix region_code : String) : String :=
  leafOf collection ++ "_" ++ band ++ "_" ++ time_suffix ++ "_" ++ region_code ++ ".tif"

/-- The intermediate part filename (source line 188):
`f"{collection.split('/')[-1]}_{band}_{time_suffix}_{region_code}_part{idx}.tif"`. -/
def part_filename (collection band time_suffix region_code : String) (idx : Nat) : String :=
  leafOf collection ++ "_" ++ band ++ "_" ++ time_suffix ++ "_" ++ region_code
    ++ "_part" ++ toString idx ++ ".tif"

/-- A polygon, reduced to its bounds (`poly.bounds`), which is all
`get_bbox_from_polygon` reads from it. -/
structure PolyBounds where
  minx : Int
  miny : Int
  maxx : Int
  maxy : Int
deriving Repr, DecidableEq

/-- `get_bbox_from_polygon` (source lines 134-141). -/
def get_bbox_from_polygon (p : PolyBounds) : List (Int × Int) :=
  [(p.minx, p.miny), (p.maxx, p.miny), (p.maxx, p.maxy), (p.minx, p.maxy)]

/-- A region geometry: the code branches on `geom_type == "MultiPolygon"`
(source line 184), every other geometry taking the single-polygon path. -/
inductive RegionGeom
  | polygon (p : PolyBounds)
  | multiPolygon (parts : List PolyBounds)
deriving Repr, DecidableEq

/-- The body of the `try` in `merge_rasters` (source lines 35-49),
returning the exception if one is raised, plus the updated state and the
list of source handles successfully opened before any failure.
`merge` of an empty handle list raises inside rasterio, so the empty
case is an error.  A failing output write can leave a truncated merged
file, since `rasterio.open(output_path, "w")` creates the file before
`dest.write` runs. -/
def merge_rasters_body (mo : MergeOutcome) (file_list : List FPath)
    (output_path : FPath) (st : St) : Except PyErr Unit × St × List FPath :=
  match mo with
  | .openFails idx => (.error (.otherErr "open"), st, file_list.take idx)
  | .mergeFails => (.error (.otherErr "merge"), st, file_list)
  | .writeFails =>
      (.error (.otherErr "write"),
       { st with fs := st.fs.write output_path .truncated }, file_list)
  | .ok =>
      if file_list.isEmpty then (.error (.otherErr "merge"), st, file_list)
      else
        (.ok (),
         { st with fs := st.fs.write output_path .complete,
                   log := st.log ++ [.infoMerged output_path] }, file_list)

/-- The result of one `merge_rasters` call: the value returned to the
caller, the final state, and the raster handles opened and closed. -/
structure MergeRun where
  ret : Except PyErr Unit
  st : St
  opened : List FPath
  closed : List FPath
deriving Repr

/-- `merge_rasters` (source lines 26-54): the body wrapped in
`try/except Exception` (every exception is logged, none re-raised) and a
`finally` that closes every handle in `src_files`. -/
def merge_rasters (mo : MergeOutcome) (file_list : List FPath)
    (output_path : FPath) (st : St) : MergeRun :=
  match merge_rasters_body mo file_list output_path st with
  | (.ok _, st1, opened) => ⟨.ok (), st1, opened, opened⟩
  | (.error _, st1, opened) =>
      ⟨.ok (), { st1 with log := st1.log ++ [.errorMerge] }, opened, opened⟩

/-- The `for idx, poly in enumerate(region_geometry.geoms)` loop of
`process_image` (source lines 186-191): downloads each part, collecting
the paths of the successful ones; an exception out of
`download_for_bbox` (the `NameError` of the missing `time` import)
propagates and aborts the loop. -/
def downloadParts (w : GWorld) (region_folder collection band time_suffix region_code : String) :
    List PolyBounds → Nat → St → Except PyErr (List FPath) × St
  | [], _, st => (.ok [], st)
  | _ :: rest, idx, st =>
    let fname := part_filename collection band time_suffix region_code idx
    match download_for_bbox w region_folder fname st with
    | (.error e, st1) => (.error e, st1)
    | (.ok res, st1) =>
      match downloadParts w region_folder collection band time_suffix region_code rest (idx + 1) st1 with
      | (.error e, st2) => (.error e, st2)
      | (.ok more, st2) => (.ok (res.toList ++ more), st2)

/-- The `for fp in temp_files: os.remove(fp)` cleanup loop of
`process_image` (source lines 200-205); a failing removal is caught and
logged. -/
def removeTemps (removeOk : FPath → Bool) : List FPath → St → St
  | [], st => st
  | fp :: rest, st =>
    if removeOk fp then
      removeTemps removeOk rest
        { st with fs := st.fs.remove fp, log := st.log ++ [.infoRemovedTemp fp] }
    else
      removeTemps removeOk rest { st with log := st.log ++ [.warnCannotRemove fp] }

/-- `process_image` (source lines 179-210).  Multi-polygon: download each
part, abandon with a warning when no part succeeded, otherwise merge and
delete the part files.  Single polygon: one download under the final
name, its result discarded. -/
def process_image (w : GWorld) (geom : RegionGeom)
    (collection band region_code time_suffix region_folder : String) (st : St) :
    Except PyErr Unit × St :=
  match geom with
  | .multiPolygon parts =>
    match downloadParts w region_folder collection band time_suffix region_code parts 0 st with
    | (.error e, st1) => (.error e, st1)
    | (.ok temp_files, st1) =>
      if temp_files.isEmpty then
        (.ok (), { st1 with log := st1.log ++ [.warnNoValidDownloads region_code time_suffix] })
      else
        let merged := region_folder ++ "/" ++ final_filename collection band time_suffix region_code
        let run := merge_rasters (w.mergeOut merged) temp_files merged st1
        (.ok (), removeTemps w.removeOk temp_files run.st)
  | .polygon _ =>
    let fname := final_filename collection band time_suffix region_code
    match download_for_bbox w region_folder fname st with
    | (.error e, st1) => (.error e, st1)
    | (.ok _, st1) => (.ok (), st1)

/-- `calendar.isleap`. -/
def isLeapYear (y : Int) : Bool :=
  y % 4 == 0 && (y % 100 != 0 || y % 400 == 0)

/-- `calendar.monthrange(year, month)[1]`: the number of days of the
month, used as the last day of each monthly window (source line 224). -/
def monthrange_days (y : Int) (m : Nat) : Nat :=
  if m == 2 then (if isLeapYear y then 29 else 28)
  else if m == 4 || m == 6 || m == 9 || m == 11 then 30
  else 31

/-- `f"{month:02d}"` for months 1-12. -/
def two_digit (m : Nat) : String :=
  if m < 10 then "0" ++ toString m else toString m

/-- The time suffix of monthly mode (source line 228): `f"{year}_{month:02d}"`. -/
def monthly_suffix (year : Int) (m : Nat) : String :=
  toString year ++ "_" ++ two_digit m

/-- The time suffix of yearly mode (source line 216). -/
def yearly_suffix (year : Option Int) : String :=
  match year with
  | some y => toString y
  | none => ""

/-- The time suffix of monthly_mosaic mode (source line 244). -/
def mosaic_suffix (year : Int) : String :=
  toString year ++ "_monthly_mosaic"

/-- The `for month in range(1, 13)` loop of monthly mode (source lines
222-229): one `process_image` per month, an exception aborting the
remaining months.  `m` is the current month, the `Nat` argument the
number of months left. -/
def monthsLoop (w : GWorld) (geom : RegionGeom)
    (collection band region_code region_folder : String) (y : Int) (m : Nat) :
    Nat → St → Except PyErr Unit × St
  | 0, st => (.ok (), st)
  | k + 1, st =>
    match process_image w geom collection band region_code (monthly_suffix y m) region_folder st with
    | (.error e, st1) => (.error e, st1)
    | (.ok _, st1) =>
        monthsLoop w geom collection band region_code region_folder y (m + 1) k st1

/-- The body of `process_region` (source lines 123-245): creates the
region folder, then dispatches on the frequency.  The Earth Engine
collection/image constructions (`ee.ImageCollection`, `filterDate`,
`mosaic`, `reproject`) are lazy client-side reference building and incur
no modelled effect; the monthly windows they are built from are
`[f"{year}-{month:02d}-01", f"{year}-{month:02d}-{monthrange_days}"]`. -/
def process_region_body (w : GWorld)
    (frequency collection band output_folder region_code : String)
    (geom : RegionGeom) (year : Option Int) (st : St) : Except PyErr Unit × St :=
  let region_folder := output_folder ++ "/" ++ region_code
  let st0 := { st with dirs := st.dirs ++ [region_folder] }
  if frequency == "yearly" then
    process_image w geom collection band region_code (yearly_suffix year) region_folder st0
  else if frequency == "monthly" then
    match year with
    | none => (.ok (), { st0 with log := st0.log ++ [.warnYearRequired region_code] })
    | some y => monthsLoop w geom collection band region_code region_folder y 1 12 st0
  else if frequency == "monthly_mosaic" then
    match year with
    | none => (.ok (), { st0 with log := st0.log ++ [.warnYearRequired region_code] })
    | some y =>
        process_image w geom collection band region_code (mosaic_suffix y) region_folder st0
  else (.ok (), st0)

/-- `process_region` (source lines 113-248): the whole body runs inside
`try/except Exception`, which logs the exception with the region code
and year and returns normally. -/
def process_region (w : GWorld)
    (frequency collection band output_folder region_code : String)
    (geom : RegionGeom) (year : Option Int) (st : St) : Except PyErr Unit × St :=
  match process_region_body w frequency collection band output_folder region_code geom year st with
  | (.ok _, st1) => (.ok (), st1)
  | (.error _, st1) =>
      (.ok (), { st1 with log := st1.log ++ [.errorTaskBoundary region_code year] })

/-- One row of the caller's GeoDataFrame: the region identifier read
from `column_name` and the region geometry. -/
structure RegionRow where
  code : String
  geom : RegionGeom
deriving Repr, DecidableEq

/-- Task enumeration (source lines 252-259): one task per (region, year)
when `years` is truthy, one per region otherwise (Python's `if years:`
treats both `None` and `[]` as falsy). -/
def enumerate_tasks (rows : List RegionRow) (years : Option (List Int)) :
    List (RegionRow × Option Int) :=
  match years with
  | some (y :: ys) => rows.flatMap (fun r => (y :: ys).map (fun yr => (r, some yr)))
  | _ => rows.map (fun r => (r, none))

/-- Execution of the submitted tasks (source lines 260-264).  Each task
is a `process_region` call; `future.result()` is wrapped in a
`try/except`, but `process_region` never raises, so the tasks simply run
over the shared state.  (Interleaving is irrelevant here: the properties
proved below are about the accumulated effects; the concurrency bound is
modelled separately by `PoolStep`.) -/
def runTasks (w : GWorld) (frequency collection band output_folder : String) :
    List (RegionRow × Option Int) → St → St
  | [], st => st
  | (r, yr) :: rest, st =>
    let res := process_region w frequency collection band output_folder r.code r.geom yr st
    runTasks w frequency collection band output_folder rest res.2

/-- The frequencies accepted at source line 108. -/
def valid_frequencies : List String := ["yearly", "monthly", "monthly_mosaic"]

/-- `download_gee_data_single_collection` (source lines 79-266): validate
the frequency (raising `ValueError` before anything else happens), create
the output folder, enumerate the tasks and run them all. -/
def download_gee_data_single_collection (w : GWorld) (rows : List RegionRow)
    (years : Option (List Int)) (frequency collection band output_folder : String)
    (st : St) : Except PyErr Unit × St :=
  if valid_frequencies.contains frequency then
    let st1 := { st with dirs := st.dirs ++ [output_folder] }
    (.ok (), runTasks w frequency collection band output_folder
              (enumerate_tasks rows years) st1)
  else
    (.error .valueErrorFrequency, st)

/-- A task running on one of the pool's worker threads: how many remote
calls (`getDownloadURL` requests and HTTP GETs of `process_region`) it
still has to make, and whether one is currently in flight.  A task is
sequential straight-line code, so it has at most one call in flight and
it blocks its worker for the call's duration. -/
structure TaskState where
  remainingCalls : Nat
  inFlight : Bool
deriving Repr, DecidableEq

/-- The worker-pool state (source lines 250-264): tasks submitted but
not yet started (each recorded by its number of remote calls), tasks
currently running on a worker, and the number of completed tasks. -/
structure PoolState where
  pending : List Nat
  running : List TaskState
  finished : Nat
deriving Repr, DecidableEq

/-- Number of remote calls simultaneously in flight. -/
def inFlightCount (s : PoolState) : Nat :=
  s.running.countP (fun t => t.inFlight)

/-- Small-step semantics of the orchestrator: `ThreadPoolExecutor`
with `max_workers = W` starts a pending task only while fewer than `W`
tasks are running (the executor's documented worker bound); a running
task alternates between beginning a remote call (at most one at a time,
since `process_region` is sequential) and completing it; a task with no
work left finishes and frees its worker. -/
inductive PoolStep (W : Nat) : PoolState → PoolState → Prop
  | start (n : Nat) (rest : List Nat) (running : List TaskState) (f : Nat) :
      running.length < W →
      PoolStep W ⟨n :: rest, running, f⟩ ⟨rest, ⟨n, false⟩ :: running, f⟩
  | beginCall (p : List Nat) (pre post : List TaskState) (n : Nat) (f : Nat) :
      PoolStep W ⟨p, pre ++ ⟨n + 1, false⟩ :: post, f⟩
                 ⟨p, pre ++ ⟨n + 1, true⟩ :: post, f⟩
  | endCall (p : List Nat) (pre post : List TaskState) (n : Nat) (f : Nat) :
      PoolStep W ⟨p, pre ++ ⟨n + 1, true⟩ :: post, f⟩
                 ⟨p, pre ++ ⟨n, false⟩ :: post, f⟩
  | finish (p : List Nat) (pre post : List TaskState) (f : Nat) :
      PoolStep W ⟨p, pre ++ ⟨0, false⟩ :: post, f⟩ ⟨p, pre ++ post, f + 1⟩

/-- The initial pool state: all `N` enumerated tasks submitted to the
queue, none running. -/
def initPool (taskCalls : List Nat) : PoolState :=
  ⟨taskCalls, [], 0⟩

/-- Reachability under the pool semantics. -/
def PoolReachable (W : Nat) (taskCalls : List Nat) (s : PoolState) : Prop :=
  Relation.ReflTransGen (PoolStep W) (initPool taskCalls) s

/-! ## Specification-side predicates -/

/-- `FSGrows st st' P` says every file present after a computation was
already present before it, or sits at a path satisfying `P`: the
computation creates files only at paths in `P`. -/
def FSGrows (st st' : St) (P : FPath → Prop) : Prop :=
  ∀ p k, (p, k) ∈ st'.fs → (p, k) ∈ st.fs ∨ P p

/-- The paths at which one `process_image` call for a given time suffix
may create files: the final artifact name, plus — only when the geometry
is a multi-polygon — the `_part<i>` intermediate names. -/
def imageNames (geom : RegionGeom)
    (region_folder collection band region_code time_suffix : String) (p : FPath) : Prop :=
  match geom with
  | .polygon _ =>
      p = region_folder ++ "/" ++ final_filename collection band time_suffix region_code
  | .multiPolygon _ =>
      p = region_folder ++ "/" ++ final_filename collection band time_suffix region_code
      ∨ ∃ i, p = region_folder ++ "/" ++ part_filename collection band time_suffix region_code i

/-- The time suffixes a task with the given frequency and year passes to
`process_image`: the name grammar of the output artifacts. -/
def plan_suffixes (frequency : String) (year : Option Int) : List String :=
  if frequency == "yearly" then [yearly_suffix year]
  else if frequency == "monthly" then
    match year with
    | none => []
    | some y => (List.range 12).map (fun i => monthly_suffix y (i + 1))
  else if frequency == "monthly_mosaic" then
    match year with
    | none => []
    | some y => [mosaic_suffix y]
  else []

/-! ## Concrete inputs used to exercise the model -/

/-- An empty starting state: nothing on disk, no calls made. -/
def exSt0 : St := ⟨[], [], 0, [], []⟩

/-- A world in which every remote interaction succeeds. -/
def exWorldOk : GWorld := ⟨fun _ _ => .success, fun _ => .ok, fun _ => true⟩

/-- A world in which every `getDownloadURL` call raises. -/
def exWorldUrl : GWorld := ⟨fun _ _ => .urlError, fun _ => .ok, fun _ => true⟩

/-- A world in which every HTTP transfer dies mid-stream after writing
some bytes. -/
def exWorldMid : GWorld := ⟨fun _ _ => .midStreamError, fun _ => .ok, fun _ => true⟩

/-- A world in which every HTTP transfer fails before writing any byte. -/
def exWorldHttp : GWorld := ⟨fun _ _ => .httpError, fun _ => .ok, fun _ => true⟩

/-- A two-part multi-polygon geometry. -/
def exGeomMulti : RegionGeom := .multiPolygon [⟨0, 0, 1, 1⟩, ⟨2, 2, 3, 3⟩]

/-- The merged artifact path for collection `C/L`, band `B`, suffix
`2021`, region `R1` under region folder `out/R1`. -/
def exMergedPath : FPath := "out/R1/" ++ final_filename "C/L" "B" "2021" "R1"

/-- A filesystem on which the merged artifact of `exGeomMulti` already
exists, as after a completed earlier run. -/
def exStMerged : St := ⟨[(exMergedPath, .complete)], [], 0, [], []⟩

/-! ## Helper lemmas on the filesystem model -/

theorem FS.mem_write {fs : FS} {p q : FPath} {k k' : FileKind}
    (h : (q, k') ∈ fs.write p k) : q = p ∨ (q, k') ∈ fs := by
  rcases List.mem_cons.mp h with h1 | h1
  · exact Or.inl (congrArg Prod.fst h1)
  · exact Or.inr (List.mem_filter.mp h1).1

theorem FS.mem_remove {fs : FS} {p q : FPath} {k : FileKind}
    (h : (q, k) ∈ fs.remove p) : (q, k) ∈ fs :=
  (List.mem_filter.mp h).1

theorem FS.existsPath_iff {fs : FS} {p : FPath} :
    fs.existsPath p = true ↔ ∃ k, (p, k) ∈ fs := by
  constructor
  · intro h
    obtain ⟨⟨a, b⟩, hm, he⟩ := List.any_eq_true.mp h
    have : a = p := by simpa using he
    exact ⟨b, by simpa [this] using hm⟩
  · rintro ⟨k, hk⟩
    exact List.any_eq_true.mpr ⟨(p, k), hk, by simp⟩

theorem FS.existsPath_write_self (fs : FS) (p : FPath) (k : FileKind) :
    (fs.write p k).existsPath p = true := by
  simp [FS.existsPath, FS.write]

theorem FS.existsPath_remove_self (fs : FS) (p : FPath) :
    (fs.remove p).existsPath p = false := by
  simp only [FS.existsPath, FS.remove]
  rw [List.any_eq_false]
  intro e he
  have := (List.mem_filter.mp he).2
  simpa [bne] using this

theorem FS.existsPath_remove_ne {p q : FPath} (h : p ≠ q) (fs : FS) :
    (fs.remove q).existsPath p = fs.existsPath p := by
  simp only [FS.remove, FS.existsPath, List.any_filter]
  congr 1
  funext a
  by_cases hap : a.1 = p
  · subst hap
    have hq : (a.1 != q) = true := by simpa [bne] using h
    simp [hq]
  · simp [hap]

theorem FS.existsPath_mono_remove {fs : FS} {p q : FPath}
    (h : (fs.remove q).existsPath p = true) : fs.existsPath p = true := by
  by_cases hpq : p = q
  · rw [hpq] at h
    rw [FS.existsPath_remove_self] at h
    cases h
  · rwa [FS.existsPath_remove_ne hpq] at h

/-! ## Helper lemmas on filenames -/

theorem str_append_left_cancel {a b c : String} (h : a ++ b = a ++ c) : b = c := by
  have hd := congrArg String.data h
  simp only [String.data_append] at hd
  exact String.ext (List.append_cancel_left hd)

/-- A final artifact filename is never equal to a part filename with the
same components: the part name carries the extra `_part<i>` infix. -/
theorem final_ne_part (c b t r : String) (i : Nat) :
    final_filename c b t r ≠ part_filename c b t r i := by
  intro h
  have hd := congrArg String.length h
  unfold final_filename part_filename at hd
  simp only [String.length_append] at hd
  have l2 : "_part".length = 5 := rfl
  rw [l2] at hd
  omega

theorem path_final_ne_part (rf c b t r : String) (i : Nat) :
    rf ++ "/" ++ final_filename c b t r ≠ rf ++ "/" ++ part_filename c b t r i := by
  intro h
  exact final_ne_part c b t r i (str_append_left_cancel h)

/-! ## Filesystem-growth lemmas -/

theorem FSGrows.of_fs_eq {st st' : St} (h : st'.fs = st.fs) (P : FPath → Prop) :
    FSGrows st st' P := by
  intro p k hm
  rw [h] at hm
  exact Or.inl hm

theorem FSGrows.mono {st st' : St} {P Q : FPath → Prop}
    (h : FSGrows st st' P) (hpq : ∀ p, P p → Q p) : FSGrows st st' Q := by
  intro p k hm
  rcases h p k hm with h1 | h1
  · exact Or.inl h1
  · exact Or.inr (hpq p h1)

theorem FSGrows.trans {s t u : St} {P : FPath → Prop}
    (h1 : FSGrows s t P) (h2 : FSGrows t u P) : FSGrows s u P := by
  intro p k hm
  rcases h2 p k hm with h | h
  · exact h1 p k h
  · exact Or.inr h

theorem FSGrows.of_write {st st' : St} {q : FPath} {k : FileKind}
    (h : st'.fs = st.fs.write q k) : FSGrows st st' (fun p => p = q) := by
  intro p k' hm
  rw [h] at hm
  rcases FS.mem_write hm with h1 | h1
  · exact Or.inr h1
  · exact Or.inl h1

theorem FSGrows.of_remove {st st' : St} {q : FPath} (P : FPath → Prop)
    (h : st'.fs = st.fs.remove q) : FSGrows st st' P := by
  intro p k hm
  rw [h] at hm
  exact Or.inl (FS.mem_remove hm)

/-! ## Which paths each pipeline stage can create -/

theorem timeImported_false : timeImported = false := by decide

theorem attemptOnce_grows (out : AttemptOutcome) (fp : FPath) (st : St) :
    FSGrows st (attemptOnce out fp st).2 (fun p => p = fp) := by
  cases out with
  | urlError => exact FSGrows.of_fs_eq rfl _
  | httpError =>
    dsimp only [attemptOnce]
    split
    · exact FSGrows.of_fs_eq rfl _
    · exact FSGrows.of_fs_eq rfl _
  | midStreamError =>
    dsimp only [attemptOnce]
    split
    · exact FSGrows.of_fs_eq rfl _
    · exact FSGrows.of_write rfl
  | success =>
    dsimp only [attemptOnce]
    split
    · exact FSGrows.of_fs_eq rfl _
    · exact FSGrows.of_write rfl

theorem retryLoop_grows (w : GWorld) (fp : FPath) :
    ∀ (rem attempt : Nat) (st : St),
      FSGrows st (retryLoop w fp attempt rem st).2 (fun p => p = fp) := by
  intro rem
  induction rem with
  | zero => intro attempt st; exact FSGrows.of_fs_eq rfl _
  | succ rem ih =>
    intro attempt st
    dsimp only [retryLoop]
    rcases h : attemptOnce (w.attempt fp attempt) fp st with ⟨r, st1⟩
    have hg : FSGrows st st1 (fun p => p = fp) := by
      have := attemptOnce_grows (w.attempt fp attempt) fp st
      rwa [h] at this
    cases r with
    | ok _ => exact FSGrows.trans hg (FSGrows.of_fs_eq rfl _)
    | error _ =>
      rw [timeImported_false]
      simp only [Bool.false_eq_true, if_false]
      exact FSGrows.trans hg (FSGrows.of_fs_eq rfl _)

theorem download_for_bbox_grows (w : GWorld) (rf fn : String) (st : St) :
    FSGrows st (download_for_bbox w rf fn st).2 (fun p => p = rf ++ "/" ++ fn) := by
  dsimp only [download_for_bbox]
  split
  · exact FSGrows.of_fs_eq rfl _
  · exact retryLoop_grows w (rf ++ "/" ++ fn) 5 1 st

theorem downloadParts_grows (w : GWorld) (rf c b ts rc : String) :
    ∀ (parts : List PolyBounds) (idx : Nat) (st : St),
      FSGrows st (downloadParts w rf c b ts rc parts idx st).2
        (fun p => ∃ i, p = rf ++ "/" ++ part_filename c b ts rc i) := by
  intro parts
  induction parts with
  | nil => intro idx st; exact FSGrows.of_fs_eq rfl _
  | cons q rest ih =>
    intro idx st
    dsimp only [downloadParts]
    split
    next e s1 heq =>
      have hg := download_for_bbox_grows w rf (part_filename c b ts rc idx) st
      rw [heq] at hg
      exact hg.mono (fun p hp => ⟨idx, hp⟩)
    next res s1 heq =>
      have hg := download_for_bbox_grows w rf (part_filename c b ts rc idx) st
      rw [heq] at hg
      have hg1 := hg.mono (fun p hp => (⟨idx, hp⟩ :
        ∃ i, p = rf ++ "/" ++ part_filename c b ts rc i))
      split
      next e2 s2 heq2 =>
        have hg2 := ih (idx + 1) s1
        rw [heq2] at hg2
        exact FSGrows.trans hg1 hg2
      next more s2 heq2 =>
        have hg2 := ih (idx + 1) s1
        rw [heq2] at hg2
        exact FSGrows.trans hg1 hg2

theorem merge_rasters_grows (mo : MergeOutcome) (files : List FPath)
    (out : FPath) (st : St) :
    FSGrows st (merge_rasters mo files out st).st (fun p => p = out) := by
  cases mo <;> dsimp only [merge_rasters, merge_rasters_body]
  case openFails idx => exact FSGrows.of_fs_eq rfl _
  case mergeFails => exact FSGrows.of_fs_eq rfl _
  case writeFails => exact FSGrows.of_write rfl
  case ok =>
    by_cases he : files.isEmpty = true
    · rw [if_pos he]
      exact FSGrows.of_fs_eq rfl _
    · rw [if_neg he]
      exact FSGrows.of_write rfl

theorem removeTemps_mem (ro : FPath → Bool) :
    ∀ (l : List FPath) (st : St) (p : FPath) (k : FileKind),
      (p, k) ∈ (removeTemps ro l st).fs → (p, k) ∈ st.fs := by
  intro l
  induction l with
  | nil => intro st p k h; exact h
  | cons fp rest ih =>
    intro st p k h
    dsimp only [removeTemps] at h
    by_cases hro : ro fp = true
    · rw [if_pos hro] at h
      exact FS.mem_remove
        (ih { st with fs := st.fs.remove fp, log := st.log ++ [.infoRemovedTemp fp] } p k h)
    · rw [if_neg hro] at h
      exact ih { st with log := st.log ++ [.warnCannotRemove fp] } p k h

theorem removeTemps_grows (ro : FPath → Bool) (l : List FPath) (st : St)
    (P : FPath → Prop) : FSGrows st (removeTemps ro l st) P :=
  fun p k h => Or.inl (removeTemps_mem ro l st p k h)

theorem process_image_grows (w : GWorld) (geom : RegionGeom)
    (c b rc ts rf : String) (st : St) :
    FSGrows st (process_image w geom c b rc ts rf st).2 (imageNames geom rf c b rc ts) := by
  cases geom with
  | polygon q =>
    dsimp only [process_image]
    rcases h : download_for_bbox w rf (final_filename c b ts rc) st with ⟨r, st1⟩
    have hg : FSGrows st st1 (imageNames (.polygon q) rf c b rc ts) := by
      have := download_for_bbox_grows w rf (final_filename c b ts rc) st
      rw [h] at this
      exact this.mono (fun p hp => hp)
    cases r with
    | error _ => exact hg
    | ok _ => exact hg
  | multiPolygon parts =>
    dsimp only [process_image]
    split
    next e s1 heq =>
      have hg := downloadParts_grows w rf c b ts rc parts 0 st
      rw [heq] at hg
      exact hg.mono (fun p hp => Or.inr hp)
    next temp_files s1 heq =>
      have hg := downloadParts_grows w rf c b ts rc parts 0 st
      rw [heq] at hg
      have hg1 := hg.mono (fun p hp =>
        (Or.inr hp : imageNames (.multiPolygon parts) rf c b rc ts p))
      by_cases he : temp_files.isEmpty = true
      · rw [if_pos he]
        exact FSGrows.trans hg1 (FSGrows.of_fs_eq rfl _)
      · rw [if_neg he]
        refine FSGrows.trans hg1 (FSGrows.trans
          (t := (merge_rasters (w.mergeOut (rf ++ "/" ++ final_filename c b ts rc))
                  temp_files (rf ++ "/" ++ final_filename c b ts rc) s1).st) ?_ ?_)
        · exact (merge_rasters_grows _ _ _ _).mono (fun p hp => Or.inl hp)
        · exact removeTemps_grows _ _ _ _

theorem monthsLoop_grows (w : GWorld) (geom : RegionGeom)
    (c b rc rf : String) (y : Int) :
    ∀ (k m : Nat) (st : St),
      FSGrows st (monthsLoop w geom c b rc rf y m k st).2
        (fun p => ∃ j, j < k ∧ imageNames geom rf c b rc (monthly_suffix y (m + j)) p) := by
  intro k
  induction k with
  | zero => intro m st; exact FSGrows.of_fs_eq rfl _
  | succ k ih =>
    intro m st
    dsimp only [monthsLoop]
    split
    next e s1 heq =>
      have hg := process_image_grows w geom c b rc (monthly_suffix y m) rf st
      rw [heq] at hg
      exact hg.mono (fun p hp => ⟨0, Nat.succ_pos k, by simpa using hp⟩)
    next s1 heq =>
      have hg := process_image_grows w geom c b rc (monthly_suffix y m) rf st
      rw [heq] at hg
      have hg1 := hg.mono (fun p hp =>
        (⟨0, Nat.succ_pos k, by simpa using hp⟩ :
          ∃ j, j < k + 1 ∧ imageNames geom rf c b rc (monthly_suffix y (m + j)) p))
      refine FSGrows.trans hg1 ((ih (m + 1) s1).mono ?_)
      rintro p ⟨j, hj, hp⟩
      exact ⟨j + 1, by omega, by rwa [Nat.add_assoc, Nat.add_comm 1 j] at hp⟩

theorem process_region_body_grows (w : GWorld)
    (frequency c b of rc : String) (geom : RegionGeom) (year : Option Int) (st : St) :
    FSGrows st (process_region_body w frequency c b of rc geom year st).2
      (fun p => ∃ ts ∈ plan_suffixes frequency year,
        imageNames geom (of ++ "/" ++ rc) c b rc ts p) := by
  dsimp only [process_region_body]
  by_cases h1 : (frequency == "yearly") = true
  · rw [if_pos h1]
    have hg := process_image_grows w geom c b rc (yearly_suffix year) (of ++ "/" ++ rc)
      { st with dirs := st.dirs ++ [of ++ "/" ++ rc] }
    refine (FSGrows.trans (FSGrows.of_fs_eq rfl _) hg).mono ?_
    intro p hp
    exact ⟨yearly_suffix year, by simp [plan_suffixes, h1], hp⟩
  · rw [if_neg h1]
    by_cases h2 : (frequency == "monthly") = true
    · rw [if_pos h2]
      cases year with
      | none => exact FSGrows.of_fs_eq rfl _
      | some y =>
        have hg := monthsLoop_grows w geom c b rc (of ++ "/" ++ rc) y 12 1
          { st with dirs := st.dirs ++ [of ++ "/" ++ rc] }
        refine (FSGrows.trans (FSGrows.of_fs_eq rfl _) hg).mono ?_
        rintro p ⟨j, hj, hp⟩
        refine ⟨monthly_suffix y (1 + j), ?_, hp⟩
        have hne : (frequency == "yearly") = false := by
          cases hf : frequency == "yearly" with
          | false => rfl
          | true => exact absurd hf h1
        simp only [plan_suffixes, hne, h2, Bool.false_eq_true, if_false, if_true, List.mem_map]
        exact ⟨j, List.mem_range.mpr hj, by rw [Nat.add_comm]⟩
    · rw [if_neg h2]
      by_cases h3 : (frequency == "monthly_mosaic") = true
      · rw [if_pos h3]
        cases year with
        | none => exact FSGrows.of_fs_eq rfl _
        | some y =>
          have hg := process_image_grows w geom c b rc (mosaic_suffix y) (of ++ "/" ++ rc)
            { st with dirs := st.dirs ++ [of ++ "/" ++ rc] }
          refine (FSGrows.trans (FSGrows.of_fs_eq rfl _) hg).mono ?_
          intro p hp
          refine ⟨mosaic_suffix y, ?_, hp⟩
          have hn1 : (frequency == "yearly") = false := by
            cases hf : frequency == "yearly" with
            | false => rfl
            | true => exact absurd hf h1
          have hn2 : (frequency == "monthly") = false := by
            cases hf : frequency == "monthly" with
            | false => rfl
            | true => exact absurd hf h2
          simp [plan_suffixes, hn1, hn2, h3]
      · rw [if_neg h3]
        exact FSGrows.of_fs_eq rfl _

theorem process_region_grows (w : GWorld)
    (frequency c b of rc : String) (geom : RegionGeom) (year : Option Int) (st : St) :
    FSGrows st (process_region w frequency c b of rc geom year st).2
      (fun p => ∃ ts ∈ plan_suffixes frequency year,
        imageNames geom (of ++ "/" ++ rc) c b rc ts p) := by
  dsimp only [process_region]
  split
  next s1 heq =>
    have hg := process_region_body_grows w frequency c b of rc geom year st
    rw [heq] at hg
    exact hg
  next e s1 heq =>
    have hg := process_region_body_grows w frequency c b of rc geom year st
    rw [heq] at hg
    exact FSGrows.trans hg (FSGrows.of_fs_eq rfl _)

theorem runTasks_grows (w : GWorld) (frequency c b of : String) :
    ∀ (tasks : List (RegionRow × Option Int)) (st : St),
      FSGrows st (runTasks w frequency c b of tasks st)
        (fun p => ∃ t ∈ tasks, ∃ ts ∈ plan_suffixes frequency t.2,
          imageNames t.1.geom (of ++ "/" ++ t.1.code) c b t.1.code ts p) := by
  intro tasks
  induction tasks with
  | nil => intro st; exact FSGrows.of_fs_eq rfl _
  | cons t rest ih =>
    intro st
    rcases t with ⟨r, yr⟩
    dsimp only [runTasks]
    have hg := process_region_grows w frequency c b of r.code r.geom yr st
    refine FSGrows.trans (hg.mono ?_) ((ih _).mono ?_)
    · rintro p ⟨ts, hts, hp⟩
      exact ⟨(r, yr), List.mem_cons_self _ _, ts, hts, hp⟩
    · rintro p ⟨t', ht', ts, hts, hp⟩
      exact ⟨t', List.mem_cons_of_mem _ ht', ts, hts, hp⟩

theorem two_digit_inj : ∀ a < 13, ∀ c < 13, two_digit a = two_digit c → a = c := by
  decide

theorem monthly_suffix_inj {y : Int} {a c : Nat} (ha : a < 13) (hc : c < 13)
    (h : monthly_suffix y a = monthly_suffix y c) : a = c := by
  unfold monthly_suffix at h
  have h2 : two_digit a = two_digit c := by
    have hassoc : ∀ s : String, toString y ++ "_" ++ s = (toString y ++ "_") ++ s := by
      intro s; rw [String.append_assoc]
    rw [hassoc, hassoc] at h
    exact str_append_left_cancel h
  exact two_digit_inj a ha c hc h2

/-- The twelve monthly suffixes `y_01` .. `y_12` are pairwise distinct. -/
theorem monthly_suffixes_nodup (y : Int) :
    ((List.range 12).map (fun i => monthly_suffix y (i + 1))).Nodup := by
  refine List.Nodup.map_on ?_ (List.nodup_range 12)
  intro a ha c hc h
  have ha' := List.mem_range.mp ha
  have hc' := List.mem_range.mp hc
  have := monthly_suffix_inj (by omega) (by omega) h
  omega

/-- Every monthly window spans between 28 and 31 days. -/
theorem monthrange_days_bounds (y : Int) (m : Nat) :
    28 ≤ monthrange_days y m ∧ monthrange_days y m ≤ 31 := by
  unfold monthrange_days
  by_cases h2 : (m == 2) = true
  · rw [if_pos h2]
    cases isLeapYear y <;> simp
  · rw [if_neg h2]
    split <;> omega

/-- Every suffix the pipeline can use has one of the four documented
shapes: empty, a year, a year-month pair, or a year with the
`monthly_mosaic` marker. -/
theorem plan_suffixes_shape (frequency : String) (year : Option Int) :
    ∀ ts ∈ plan_suffixes frequency year,
      ts = "" ∨ (∃ y : Int, ts = toString y) ∨
      (∃ (y : Int) (m : Nat), 1 ≤ m ∧ m ≤ 12 ∧ ts = monthly_suffix y m) ∨
      (∃ y : Int, ts = mosaic_suffix y) := by
  intro ts hts
  unfold plan_suffixes at hts
  by_cases h1 : (frequency == "yearly") = true
  · rw [if_pos h1] at hts
    rcases List.mem_singleton.mp hts with rfl
    cases year with
    | none => exact Or.inl rfl
    | some y => exact Or.inr (Or.inl ⟨y, rfl⟩)
  · rw [if_neg h1] at hts
    by_cases h2 : (frequency == "monthly") = true
    · rw [if_pos h2] at hts
      cases year with
      | none => cases hts
      | some y =>
        rcases List.mem_map.mp hts with ⟨i, hi, rfl⟩
        have := List.mem_range.mp hi
        exact Or.inr (Or.inr (Or.inl ⟨y, i + 1, by omega, by omega, rfl⟩))
    · rw [if_neg h2] at hts
      by_cases h3 : (frequency == "monthly_mosaic") = true
      · rw [if_pos h3] at hts
        cases year with
        | none => cases hts
        | some y =>
          rcases List.mem_singleton.mp hts with rfl
          exact Or.inr (Or.inr (Or.inr ⟨y, rfl⟩))
      · rw [if_neg h3] at hts
        cases hts

theorem bool_ne_true {b : Bool} (h : b = false) : ¬(b = true) := by
  simp [h]

/-- A bounding-box download whose first attempt succeeds (or whose target
already exists) returns the target path, which afterwards exists. -/
theorem download_for_bbox_success (w : GWorld) (rf fn : String) (st : St)
    (h : w.attempt (rf ++ "/" ++ fn) 1 = .success) :
    ∃ s, download_for_bbox w rf fn st = (.ok (some (rf ++ "/" ++ fn)), s)
      ∧ s.fs.existsPath (rf ++ "/" ++ fn) = true := by
  dsimp only [download_for_bbox]
  by_cases hex : st.fs.existsPath (rf ++ "/" ++ fn) = true
  · rw [if_pos hex]
    exact ⟨_, rfl, hex⟩
  · rw [if_neg hex]
    show ∃ s, retryLoop w (rf ++ "/" ++ fn) 1 (4 + 1) st = _ ∧ _
    dsimp only [retryLoop]
    rw [h]
    dsimp only [attemptOnce]
    have hex' : ({ st with netCalls := st.netCalls + 1 } : St).fs.existsPath
        (rf ++ "/" ++ fn) = true → False := fun hc => hex hc
    rw [if_neg hex']
    exact ⟨_, rfl, FS.existsPath_write_self _ _ _⟩

/-- When every part's first attempt succeeds, the part-download loop
returns the full list of part paths. -/
theorem downloadParts_success (w : GWorld) (rf c b ts rc : String)
    (hs : ∀ i, w.attempt (rf ++ "/" ++ part_filename c b ts rc i) 1 = .success) :
    ∀ (parts : List PolyBounds) (idx : Nat) (st : St),
      ∃ lst s, downloadParts w rf c b ts rc parts idx st = (.ok lst, s)
        ∧ (∀ fp ∈ lst, ∃ j, fp = rf ++ "/" ++ part_filename c b ts rc j)
        ∧ (∀ j, j < parts.length → (rf ++ "/" ++ part_filename c b ts rc (idx + j)) ∈ lst) := by
  intro parts
  induction parts with
  | nil =>
    intro idx st
    exact ⟨[], st, rfl, (by intro fp hfp; cases hfp), (by intro j hj; simp at hj)⟩
  | cons q rest ih =>
    intro idx st
    obtain ⟨s1, hdl, _⟩ := download_for_bbox_success w rf (part_filename c b ts rc idx) st (hs idx)
    obtain ⟨lst, s2, hdp, hmem, hcov⟩ := ih (idx + 1) s1
    refine ⟨(rf ++ "/" ++ part_filename c b ts rc idx) :: lst, s2, ?_, ?_, ?_⟩
    · dsimp only [downloadParts]
      rw [hdl]
      dsimp only
      rw [hdp]
      rfl
    · intro fp hfp
      rcases List.mem_cons.mp hfp with h1 | h1
      · exact ⟨idx, h1⟩
      · exact hmem fp h1
    · intro j hj
      cases j with
      | zero => rw [Nat.add_zero]; exact List.mem_cons_self _ _
      | succ j' =>
        have hj' : j' < rest.length := by
          simp only [List.length_cons] at hj
          omega
        have h2 : idx + (j' + 1) = idx + 1 + j' := by omega
        rw [h2]
        exact List.mem_cons_of_mem _ (hcov j' hj')

theorem removeTemps_existsPath_mono (ro : FPath → Bool) (l : List FPath) (st : St)
    (p : FPath) (h : (removeTemps ro l st).fs.existsPath p = true) :
    st.fs.existsPath p = true := by
  obtain ⟨k, hk⟩ := FS.existsPath_iff.mp h
  exact FS.existsPath_iff.mpr ⟨k, removeTemps_mem ro l st p k hk⟩

/-- Every path in the cleanup list is absent after the cleanup loop,
provided its removal succeeds. -/
theorem removeTemps_removes (ro : FPath → Bool) :
    ∀ (l : List FPath) (st : St) (p : FPath),
      (∀ q ∈ l, ro q = true) → p ∈ l →
      (removeTemps ro l st).fs.existsPath p = false := by
  intro l
  induction l with
  | nil => intro st p _ hp; cases hp
  | cons fp rest ih =>
    intro st p hro hp
    dsimp only [removeTemps]
    rw [if_pos (hro fp (List.mem_cons_self _ _))]
    rcases List.mem_cons.mp hp with h1 | h1
    · subst h1
      cases hfin : (removeTemps ro rest
          { st with fs := st.fs.remove p, log := st.log ++ [.infoRemovedTemp p] }).fs.existsPath p with
      | false => rfl
      | true =>
        have h2 := removeTemps_existsPath_mono ro rest _ p hfin
        exact absurd h2 (bool_ne_true (FS.existsPath_remove_self st.fs p))
    · exact ih _ p (fun q hq => hro q (List.mem_cons_of_mem _ hq)) h1

/-- A path distinct from every entry of the cleanup list keeps its
existence status across the cleanup loop. -/
theorem removeTemps_keeps (ro : FPath → Bool) :
    ∀ (l : List FPath) (st : St) (p : FPath),
      (∀ q ∈ l, p ≠ q) →
      (removeTemps ro l st).fs.existsPath p = st.fs.existsPath p := by
  intro l
  induction l with
  | nil => intro st p _; rfl
  | cons fp rest ih =>
    intro st p hne
    dsimp only [removeTemps]
    by_cases hro : ro fp = true
    · rw [if_pos hro]
      rw [ih _ p (fun q hq => hne q (List.mem_cons_of_mem _ hq))]
      exact FS.existsPath_remove_ne (hne fp (List.mem_cons_self _ _)) st.fs
    · rw [if_neg hro]
      exact ih _ p (fun q hq => hne q (List.mem_cons_of_mem _ hq))

/-- One pre-write failure (a `getDownloadURL` error or an HTTP error
raised before any byte is written) leaves the filesystem unchanged. -/
theorem attemptOnce_prewrite {out : AttemptOutcome} (fp : FPath) (st : St)
    (h : out = .urlError ∨ out = .httpError)
    (hex : st.fs.existsPath fp = false) :
    ∃ s, attemptOnce out fp st = (.error .remoteError, s) ∧ s.fs = st.fs := by
  rcases h with rfl | rfl
  · exact ⟨_, rfl, rfl⟩
  · dsimp only [attemptOnce]
    rw [if_neg (bool_ne_true hex)]
    exact ⟨_, rfl, rfl⟩

/-- With `time` not imported, a first attempt that fails pre-write makes
the retry loop raise `NameError` at once, with the filesystem unchanged. -/
theorem retryLoop_prewrite (w : GWorld) (fp : FPath) (st : St)
    (h1 : w.attempt fp 1 = .urlError ∨ w.attempt fp 1 = .httpError)
    (hex : st.fs.existsPath fp = false) :
    ∃ s, retryLoop w fp 1 5 st = (.error .nameErrorTime, s) ∧ s.fs = st.fs := by
  show ∃ s, retryLoop w fp 1 (4 + 1) st = _ ∧ _
  dsimp only [retryLoop]
  obtain ⟨s1, ha, hfs⟩ := attemptOnce_prewrite fp st h1 hex
  rw [ha]
  dsimp only
  rw [timeImported_false]
  simp only [Bool.false_eq_true, if_false]
  exact ⟨_, rfl, hfs⟩

/-! ## Claim theorems -/

/-- C5: calling `download_gee_data_single_collection` with a frequency
string outside {yearly, monthly, monthly_mosaic} raises the
configuration `ValueError` before any task is submitted, with the state
— filesystem, created directories, network-call count and log — fully
unchanged (zero filesystem side effects). -/
theorem c5_unsupported_frequency_raises_early (w : GWorld) (rows : List RegionRow)
    (years : Option (List Int)) (frequency collection band output_folder : String)
    (st : St) (h : valid_frequencies.contains frequency = false) :
    download_gee_data_single_collection w rows years frequency collection band output_folder st
      = (.error .valueErrorFrequency, st) := by
  dsimp only [download_gee_data_single_collection]
  rw [if_neg (bool_ne_true h)]

theorem c5_witness :
    valid_frequencies.contains "weekly" = false ∧
    download_gee_data_single_collection exWorldOk [⟨"R1", .polygon ⟨0, 0, 1, 1⟩⟩]
      (some [2021]) "weekly" "C/L" "B" "out" exSt0 = (.error .valueErrorFrequency, exSt0) :=
  ⟨by decide,
   c5_unsupported_frequency_raises_early exWorldOk [⟨"R1", .polygon ⟨0, 0, 1, 1⟩⟩]
     (some [2021]) "weekly" "C/L" "B" "out" exSt0 (by decide)⟩

/-- C9: `merge_rasters` never raises to its caller: for every outcome of
the external raster library, the call returns the same valueless result
(`None`), and the `finally` block closes exactly the raster handles that
were successfully opened — so a failed merge is indistinguishable from a
successful one by the call's result. -/
theorem c9_merge_rasters_never_raises (mo : MergeOutcome) (files : List FPath)
    (out : FPath) (st : St) :
    (merge_rasters mo files out st).ret = .ok ()
    ∧ (merge_rasters mo files out st).closed = (merge_rasters mo files out st).opened := by
  cases mo with
  | openFails i => exact ⟨rfl, rfl⟩
  | mergeFails => exact ⟨rfl, rfl⟩
  | writeFails => exact ⟨rfl, rfl⟩
  | ok =>
    dsimp only [merge_rasters, merge_rasters_body]
    by_cases he : files.isEmpty = true
    · rw [if_pos he]
      exact ⟨rfl, rfl⟩
    · rw [if_neg he]
      exact ⟨rfl, rfl⟩

/-- C2 (code bug in the source): `GEE_utilities.py` never imports `time`,
so the `time.sleep(0.32 * attempt)` in the retry loop's `except` handler
raises `NameError` on the very first failed attempt.  Evaluated at a
failing input (every `getDownloadURL` call raising), the download makes
exactly one network attempt, executes no sleep, and aborts with the
`NameError` instead of retrying up to 5 times and returning `None`. -/
theorem c2_missing_time_import_aborts_first_retry :
    moduleImports.contains "time" = false
    ∧ download_for_bbox exWorldUrl "out/R1" "L_B_2021_R1.tif" exSt0 =
        (.error .nameErrorTime,
         ⟨[], [], 1, [], [.warnRetry "out/R1/L_B_2021_R1.tif" 1]⟩) :=
  ⟨rfl, rfl⟩

/-- C6: the whole task body of `process_region` runs inside a
`try/except Exception`: the task never raises to the orchestrator, and
whenever the body does raise, the boundary handler logs the error with
the region code and year. -/
theorem c6_task_boundary_catches_everything (w : GWorld)
    (frequency collection band output_folder region_code : String)
    (geom : RegionGeom) (year : Option Int) (st : St) :
    (process_region w frequency collection band output_folder region_code geom year st).1 = .ok ()
    ∧ ∀ e s,
        process_region_body w frequency collection band output_folder region_code geom year st
          = (.error e, s) →
        .errorTaskBoundary region_code year ∈
          (process_region w frequency collection band output_folder region_code geom year st).2.log := by
  constructor
  · dsimp only [process_region]
    rcases h : process_region_body w frequency collection band output_folder region_code geom year st
      with ⟨r, s1⟩
    cases r with
    | ok _ => rfl
    | error _ => rfl
  · intro e s hbody
    dsimp only [process_region]
    rw [hbody]
    simp

theorem c6_witness :
    (process_region exWorldUrl "yearly" "C/L" "B" "out" "R1" (.polygon ⟨0, 0, 1, 1⟩)
        (some 2021) exSt0).1 = .ok ()
    ∧ .errorTaskBoundary "R1" (some 2021) ∈
        (process_region exWorldUrl "yearly" "C/L" "B" "out" "R1" (.polygon ⟨0, 0, 1, 1⟩)
          (some 2021) exSt0).2.log :=
  ⟨(c6_task_boundary_catches_everything exWorldUrl "yearly" "C/L" "B" "out" "R1"
      (.polygon ⟨0, 0, 1, 1⟩) (some 2021) exSt0).1,
   (c6_task_boundary_catches_everything exWorldUrl "yearly" "C/L" "B" "out" "R1"
      (.polygon ⟨0, 0, 1, 1⟩) (some 2021) exSt0).2 .nameErrorTime
     ⟨[], ["out/R1"], 1, [], [.warnRetry "out/R1/L_B_2021_R1.tif" 1]⟩ rfl⟩

theorem poolStep_preserves_running_le {W : Nat} {s t : PoolState}
    (h : PoolStep W s t) (hs : s.running.length ≤ W) : t.running.length ≤ W := by
  cases h with
  | start n rest running f hlt =>
    simp only [List.length_cons]
    omega
  | beginCall p pre post n f =>
    simp only [List.length_append, List.length_cons] at hs ⊢
    omega
  | endCall p pre post n f =>
    simp only [List.length_append, List.length_cons] at hs ⊢
    omega
  | finish p pre post f =>
    simp only [List.length_append, List.length_cons] at hs ⊢
    omega

/-- C10: under the worker-pool semantics with `max_workers = W`, every
reachable state has at most `W` remote calls simultaneously in flight:
at most `W` tasks hold a worker, and each task — sequential code
blocking its worker during a call — has at most one call in flight. -/
theorem c10_in_flight_bounded_by_workers (W : Nat) (taskCalls : List Nat)
    (s : PoolState) (h : PoolReachable W taskCalls s) : inFlightCount s ≤ W := by
  have hrun : s.running.length ≤ W := by
    induction h with
    | refl => simp [initPool]
    | tail h1 hstep ih => exact poolStep_preserves_running_le hstep ih
  exact le_trans (List.countP_le_length _) hrun

theorem c10_witness :
    PoolReachable 2 [3] ⟨[], [⟨3, true⟩], 0⟩
    ∧ inFlightCount ⟨[], [⟨3, true⟩], 0⟩ ≤ 2 := by
  have s1 : PoolStep 2 (initPool [3]) ⟨[], [⟨3, false⟩], 0⟩ :=
    PoolStep.start 3 [] [] 0 (by decide)
  have s2 : PoolStep 2 ⟨[], [⟨3, false⟩], 0⟩ ⟨[], [⟨3, true⟩], 0⟩ :=
    PoolStep.beginCall [] [] [] 2 0
  have hreach : PoolReachable 2 [3] ⟨[], [⟨3, true⟩], 0⟩ :=
    Relation.ReflTransGen.head s1 (Relation.ReflTransGen.head s2 Relation.ReflTransGen.refl)
  exact ⟨hreach, c10_in_flight_bounded_by_workers 2 [3] _ hreach⟩

/-- C1 (counterexample): for a multi-part region whose merged output
artifact already exists on disk under its expected filename, a re-run of
the download step still performs network calls — 4 here, a
`getDownloadURL` request plus an HTTP GET for each of the two parts —
because the existence check is applied to each part filename and never
to the merged artifact's name. -/
theorem c1_counterexample_multipart_redownloads :
    exStMerged.fs.existsPath exMergedPath = true
    ∧ exStMerged.netCalls = 0
    ∧ (process_image exWorldOk exGeomMulti "C/L" "B" "R1" "2021" "out/R1" exStMerged).2.netCalls = 4 :=
  ⟨rfl, rfl, rfl⟩

/-- C1 (amended): a bounding-box download whose own target file already
exists returns that path with no state change other than a log line — in
particular zero network calls — and consequently a single-polygon region
whose final artifact exists is skipped entirely; for multi-part regions
the check applies to the part files, not the merged artifact. -/
theorem c1_amended_existing_target_skips_network (w : GWorld)
    (rf fn c b rc ts : String) (q : PolyBounds) (st : St) :
    (st.fs.existsPath (rf ++ "/" ++ fn) = true →
      download_for_bbox w rf fn st =
        (.ok (some (rf ++ "/" ++ fn)),
         { st with log := st.log ++ [.infoSkipExists (rf ++ "/" ++ fn)] }))
    ∧ (st.fs.existsPath (rf ++ "/" ++ final_filename c b ts rc) = true →
      process_image w (.polygon q) c b rc ts rf st =
        (.ok (),
         { st with log := st.log ++
            [.infoSkipExists (rf ++ "/" ++ final_filename c b ts rc)] })) := by
  constructor
  · intro h
    dsimp only [download_for_bbox]
    rw [if_pos h]
  · intro h
    dsimp only [process_image, download_for_bbox]
    rw [if_pos h]

theorem c1_witness :
    download_for_bbox exWorldOk "out/R1" (final_filename "C/L" "B" "2021" "R1") exStMerged
      = (.ok (some exMergedPath), { exStMerged with log := [.infoSkipExists exMergedPath] })
    ∧ process_image exWorldOk (.polygon ⟨0, 0, 1, 1⟩) "C/L" "B" "R1" "2021" "out/R1" exStMerged
      = (.ok (), { exStMerged with log := [.infoSkipExists exMergedPath] }) :=
  ⟨(c1_amended_existing_target_skips_network exWorldOk "out/R1"
      (final_filename "C/L" "B" "2021" "R1") "C/L" "B" "R1" "2021" ⟨0, 0, 1, 1⟩ exStMerged).1
      (by decide),
   (c1_amended_existing_target_skips_network exWorldOk "out/R1"
      (final_filename "C/L" "B" "2021" "R1") "C/L" "B" "R1" "2021" ⟨0, 0, 1, 1⟩ exStMerged).2
      (by decide)⟩

/-- C3 (counterexample): a one-part multi-polygon region, empty disk,
and a download that dies mid-stream on its first attempt: zero parts
succeed (the call aborts with the missing-`time`-import `NameError`
before any retry and before any success), yet a truncated part file is
left on disk — refuting "no partial file on disk". -/
theorem c3_counterexample_truncated_file_left :
    process_image exWorldMid (.multiPolygon [⟨0, 0, 1, 1⟩]) "C/L" "B" "R1" "2021" "out/R1" exSt0
      = (.error .nameErrorTime,
         ⟨[("out/R1/L_B_2021_R1_part0.tif", .truncated)], [], 2, [],
          [.warnRetry "out/R1/L_B_2021_R1_part0.tif" 1]⟩)
    ∧ (⟨[("out/R1/L_B_2021_R1_part0.tif", .truncated)], [], 2, [],
        [.warnRetry "out/R1/L_B_2021_R1_part0.tif" 1]⟩ : St).fs.existsPath
        "out/R1/L_B_2021_R1_part0.tif" = true :=
  ⟨rfl, rfl⟩

/-- C3 (amended): when zero parts of a multi-part region download
successfully and every failure happens before any byte is written
(a `getDownloadURL` error or an HTTP error caught by
`raise_for_status`), the merge step never runs and the filesystem is
left exactly as it was: no merged file and no partial file.  (A failure
after bytes were written leaves a truncated part file instead — see the
counterexample.) -/
theorem c3_amended_zero_success_prewrite_clean (w : GWorld) (parts : List PolyBounds)
    (c b rc ts rf : String) (st : St)
    (h1 : ∀ p k, w.attempt p k = .urlError ∨ w.attempt p k = .httpError)
    (h2 : ∀ i, st.fs.existsPath (rf ++ "/" ++ part_filename c b ts rc i) = false) :
    (process_image w (.multiPolygon parts) c b rc ts rf st).2.fs = st.fs := by
  cases parts with
  | nil =>
    dsimp only [process_image, downloadParts]
    rfl
  | cons q rest =>
    dsimp only [process_image, downloadParts, download_for_bbox]
    rw [if_neg (bool_ne_true (h2 0))]
    obtain ⟨s, hr, hfs⟩ :=
      retryLoop_prewrite w (rf ++ "/" ++ part_filename c b ts rc 0) st (h1 _ 1) (h2 0)
    rw [hr]
    exact hfs

theorem c3_witness :
    (process_image exWorldHttp (.multiPolygon [⟨0, 0, 1, 1⟩]) "C/L" "B" "R1" "2021"
        "out/R1" exSt0).2.fs = exSt0.fs :=
  c3_amended_zero_success_prewrite_clean exWorldHttp [⟨0, 0, 1, 1⟩] "C/L" "B" "R1" "2021"
    "out/R1" exSt0 (fun _ _ => Or.inr rfl) (fun _ => rfl)

/-- C4: for a multi-part region whose merge step runs on a successful
run — every part's download succeeds, the merge writes its output, and
each removal succeeds — the merged artifact exists afterwards and every
intermediate part file for that region/time window is absent from disk. -/
theorem c4_part_files_deleted_after_merge (w : GWorld) (parts : List PolyBounds)
    (c b rc ts rf : String) (st : St)
    (hne : parts ≠ [])
    (hs : ∀ i, w.attempt (rf ++ "/" ++ part_filename c b ts rc i) 1 = .success)
    (hm : w.mergeOut (rf ++ "/" ++ final_filename c b ts rc) = .ok)
    (hr : ∀ q, w.removeOk q = true) :
    (process_image w (.multiPolygon parts) c b rc ts rf st).1 = .ok ()
    ∧ (process_image w (.multiPolygon parts) c b rc ts rf st).2.fs.existsPath
        (rf ++ "/" ++ final_filename c b ts rc) = true
    ∧ ∀ j, j < parts.length →
        (process_image w (.multiPolygon parts) c b rc ts rf st).2.fs.existsPath
          (rf ++ "/" ++ part_filename c b ts rc j) = false := by
  obtain ⟨lst, s1, hdp, hmem, hcov⟩ := downloadParts_success w rf c b ts rc hs parts 0 st
  have hcov0 : ∀ j, j < parts.length → (rf ++ "/" ++ part_filename c b ts rc j) ∈ lst := by
    intro j hj
    have h0 := hcov j hj
    rwa [Nat.zero_add] at h0
  have hlst_ne : lst.isEmpty = false := by
    cases parts with
    | nil => exact absurd rfl hne
    | cons q rest =>
      have h0 := hcov0 0 (by simp)
      cases lst with
      | nil => cases h0
      | cons a l => rfl
  have hrun : process_image w (.multiPolygon parts) c b rc ts rf st
      = (.ok (), removeTemps w.removeOk lst
          { s1 with fs := s1.fs.write (rf ++ "/" ++ final_filename c b ts rc) .complete,
                    log := s1.log ++ [.infoMerged (rf ++ "/" ++ final_filename c b ts rc)] }) := by
    dsimp only [process_image]
    rw [hdp]
    dsimp only
    rw [hlst_ne]
    simp only [Bool.false_eq_true, if_false]
    dsimp only [merge_rasters, merge_rasters_body]
    rw [hm]
    dsimp only
    rw [hlst_ne]
    simp only [Bool.false_eq_true, if_false]
  rw [hrun]
  refine ⟨rfl, ?_, ?_⟩
  · have hne2 : ∀ q ∈ lst, (rf ++ "/" ++ final_filename c b ts rc) ≠ q := by
      intro q hq
      obtain ⟨j, rfl⟩ := hmem q hq
      exact path_final_ne_part rf c b ts rc j
    rw [removeTemps_keeps w.removeOk lst _ _ hne2]
    exact FS.existsPath_write_self _ _ _
  · intro j hj
    exact removeTemps_removes w.removeOk lst _ _ (fun q _ => hr q) (hcov0 j hj)

theorem c4_witness :
    (process_image exWorldOk exGeomMulti "C/L" "B" "R1" "2021" "out/R1" exSt0).1 = .ok ()
    ∧ (process_image exWorldOk exGeomMulti "C/L" "B" "R1" "2021" "out/R1" exSt0).2.fs.existsPath
        ("out/R1" ++ "/" ++ final_filename "C/L" "B" "2021" "R1") = true
    ∧ (process_image exWorldOk exGeomMulti "C/L" "B" "R1" "2021" "out/R1" exSt0).2.fs.existsPath
        ("out/R1" ++ "/" ++ part_filename "C/L" "B" "2021" "R1" 0) = false
    ∧ (process_image exWorldOk exGeomMulti "C/L" "B" "R1" "2021" "out/R1" exSt0).2.fs.existsPath
        ("out/R1" ++ "/" ++ part_filename "C/L" "B" "2021" "R1" 1) = false :=
  ⟨(c4_part_files_deleted_after_merge exWorldOk [⟨0, 0, 1, 1⟩, ⟨2, 2, 3, 3⟩] "C/L" "B" "R1"
      "2021" "out/R1" exSt0 (by decide) (fun _ => rfl) rfl (fun _ => rfl)).1,
   (c4_part_files_deleted_after_merge exWorldOk [⟨0, 0, 1, 1⟩, ⟨2, 2, 3, 3⟩] "C/L" "B" "R1"
      "2021" "out/R1" exSt0 (by decide) (fun _ => rfl) rfl (fun _ => rfl)).2.1,
   (c4_part_files_deleted_after_merge exWorldOk [⟨0, 0, 1, 1⟩, ⟨2, 2, 3, 3⟩] "C/L" "B" "R1"
      "2021" "out/R1" exSt0 (by decide) (fun _ => rfl) rfl (fun _ => rfl)).2.2 0 (by decide),
   (c4_part_files_deleted_after_merge exWorldOk [⟨0, 0, 1, 1⟩, ⟨2, 2, 3, 3⟩] "C/L" "B" "R1"
      "2021" "out/R1" exSt0 (by decide) (fun _ => rfl) rfl (fun _ => rfl)).2.2 1 (by decide)⟩

/-- C7 (counterexample): in monthly_mosaic mode with a failing download
(every `getDownloadURL` call raising), processing a region produces zero
artifacts — not "exactly one artifact per region": nothing is written at
the `2021_monthly_mosaic` name or anywhere else. -/
theorem c7_counterexample_mosaic_zero_artifacts :
    (process_region exWorldUrl "monthly_mosaic" "C/L" "B" "out" "R1" (.polygon ⟨0, 0, 1, 1⟩)
        (some 2021) exSt0).2.fs = []
    ∧ (process_region exWorldUrl "monthly_mosaic" "C/L" "B" "out" "R1" (.polygon ⟨0, 0, 1, 1⟩)
        (some 2021) exSt0).2.fs.existsPath
        ("out/R1/" ++ final_filename "C/L" "B" (mosaic_suffix 2021) "R1") = false :=
  ⟨rfl, rfl⟩

/-- C7 (amended): a monthly run of a region creates files only at the
names carrying the twelve suffixes `y_01` .. `y_12` — hence at most 12
final artifacts per region-year — and those suffixes are pairwise
distinct and built from calendar-month windows of 28–31 days; a
monthly_mosaic run creates files only at the single
`y_monthly_mosaic`-suffixed name — hence at most one artifact per
region, exactly one only when its download succeeds. -/
theorem c7_amended_month_suffix_counts (w : GWorld) (geom : RegionGeom)
    (collection band output_folder region_code : String) (y : Int) (st : St) :
    FSGrows st (process_region w "monthly" collection band output_folder region_code geom
        (some y) st).2
      (fun p => ∃ m, 1 ≤ m ∧ m ≤ 12 ∧
        imageNames geom (output_folder ++ "/" ++ region_code) collection band region_code
          (monthly_suffix y m) p)
    ∧ ((List.range 12).map (fun i => monthly_suffix y (i + 1))).Nodup
    ∧ (∀ m, 1 ≤ m → m ≤ 12 → 28 ≤ monthrange_days y m ∧ monthrange_days y m ≤ 31)
    ∧ FSGrows st (process_region w "monthly_mosaic" collection band output_folder region_code
        geom (some y) st).2
        (fun p => imageNames geom (output_folder ++ "/" ++ region_code) collection band
          region_code (mosaic_suffix y) p) := by
  refine ⟨?_, monthly_suffixes_nodup y, fun m _ _ => monthrange_days_bounds y m, ?_⟩
  · have hg := process_region_grows w "monthly" collection band output_folder region_code
      geom (some y) st
    refine hg.mono ?_
    rintro p ⟨ts, hts, hp⟩
    have hplan : plan_suffixes "monthly" (some y)
        = (List.range 12).map (fun i => monthly_suffix y (i + 1)) := rfl
    rw [hplan] at hts
    rcases List.mem_map.mp hts with ⟨i, hi, rfl⟩
    exact ⟨i + 1, by omega, by have := List.mem_range.mp hi; omega, hp⟩
  · have hg := process_region_grows w "monthly_mosaic" collection band output_folder region_code
      geom (some y) st
    refine hg.mono ?_
    rintro p ⟨ts, hts, hp⟩
    have hplan : plan_suffixes "monthly_mosaic" (some y) = [mosaic_suffix y] := rfl
    rw [hplan] at hts
    rcases List.mem_singleton.mp hts with rfl
    exact hp

theorem c7_witness :
    28 ≤ monthrange_days 2021 2 ∧ monthrange_days 2021 2 ≤ 31 :=
  (c7_amended_month_suffix_counts exWorldOk (.polygon ⟨0, 0, 1, 1⟩) "C/L" "B" "out" "R1"
    2021 exSt0).2.2.1 2 (by decide) (by decide)

/-- C8: every file a run of `download_gee_data_single_collection` can
create sits at `output_folder/region_id/<leaf>_<band>_<ts>_<region_id>
[_part<i>].tif` for one of the run's enumerated tasks, where the
`_part<i>` infix can occur only for multi-polygon geometries (the
single-polygon branch creates only the final name), and every time
suffix has one of the four shapes `""`, `YYYY`, `YYYY_MM`,
`YYYY_monthly_mosaic`. -/
theorem c8_filesystem_layout (w : GWorld) (rows : List RegionRow)
    (years : Option (List Int)) (frequency collection band output_folder : String) (st : St)
    (h : valid_frequencies.contains frequency = true) :
    FSGrows st (download_gee_data_single_collection w rows years frequency collection band
        output_folder st).2
      (fun p => ∃ t ∈ enumerate_tasks rows years, ∃ ts ∈ plan_suffixes frequency t.2,
        imageNames t.1.geom (output_folder ++ "/" ++ t.1.code) collection band t.1.code ts p)
    ∧ ∀ yr ts, ts ∈ plan_suffixes frequency yr →
        ts = "" ∨ (∃ y : Int, ts = toString y) ∨
        (∃ (y : Int) (m : Nat), 1 ≤ m ∧ m ≤ 12 ∧ ts = monthly_suffix y m) ∨
        (∃ y : Int, ts = mosaic_suffix y) := by
  constructor
  · dsimp only [download_gee_data_single_collection]
    rw [if_pos h]
    exact FSGrows.trans (FSGrows.of_fs_eq rfl _)
      (runTasks_grows w frequency collection band output_folder (enumerate_tasks rows years) _)
  · intro yr
    exact plan_suffixes_shape frequency yr

theorem c8_witness :
    FSGrows exSt0 (download_gee_data_single_collection exWorldOk [⟨"R1", .polygon ⟨0, 0, 1, 1⟩⟩]
        (some [2021]) "yearly" "C/L" "B" "out" exSt0).2
      (fun p => ∃ t ∈ enumerate_tasks [⟨"R1", .polygon ⟨0, 0, 1, 1⟩⟩] (some [2021]),
        ∃ ts ∈ plan_suffixes "yearly" t.2,
        imageNames t.1.geom ("out" ++ "/" ++ t.1.code) "C/L" "B" t.1.code ts p) :=
  (c8_filesystem_layout exWorldOk [⟨"R1", .polygon ⟨0, 0, 1, 1⟩⟩] (some [2021]) "yearly"
    "C/L" "B" "out" exSt0 (by decide)).1

end GEE
